import Mathlib

/-!
Verification of `src/query/query_visitor.rs` of the graphql-parser repository:
the query syntax-tree visitor contract (`QueryVisitor`) and the traversal
driver (`walk_document` and its per-node-kind helper `walk_*` functions).

The walker is embedded shallowly: the Rust trait `QueryVisitor` with its
mutable receiver becomes a record of state-transformer hooks, and every
`walk_*` function becomes a state-passing Lean function that mirrors the
Rust body statement for statement (hook call first, then recursion into the
structural children in declared order, with `for` loops over child sequences
rendered as explicit list recursion).
-/

namespace GraphqlParser

/-- Modelled from the spec: the repository's `query/ast.rs` node types are an
external data model not included under `src/`; §3 of the spec gives their
shape.  `VariableDefinition` is "one declared variable", a leaf for the
traversal.  Only the traversal-relevant structure plus a name is kept; the
model is generic over the text representation `T` as the source is over
`T: Text`. -/
structure VariableDefinition (T : Type) where
  name : T
deriving DecidableEq

/-- Modelled from the spec: a `...Name` fragment spread, a leaf (§3). -/
structure FragmentSpread (T : Type) where
  fragment_name : T
deriving DecidableEq

mutual

/-- Modelled from the spec: a requested field (§3): its name and its own
nested selection set (possibly empty). -/
inductive Field (T : Type) where
  | mk (name : T) (selection_set : SelectionSet T)

/-- Modelled from the spec: a `... on Type { }` block holding one
selection set (§3). -/
inductive InlineFragment (T : Type) where
  | mk (selection_set : SelectionSet T)

/-- Modelled from the spec: one entry of a selection set — exactly one of
field, fragment spread, inline fragment (§3). -/
inductive Selection (T : Type) where
  | Field : Field T → Selection T
  | FragmentSpread : FragmentSpread T → Selection T
  | InlineFragment : InlineFragment T → Selection T

/-- Modelled from the spec: a `{ ... }` block, an ordered sequence of
selections (§3). -/
inductive SelectionSet (T : Type) where
  | mk (items : List (Selection T))

/-- Modelled from the spec: a typed `query` operation — optional name, an
ordered sequence of variable definitions, one selection set (§3). -/
inductive Query (T : Type) where
  | mk (name : Option T) (variable_definitions : List (VariableDefinition T))
      (selection_set : SelectionSet T)

/-- Modelled from the spec: a typed `mutation` operation (§3). -/
inductive Mutation (T : Type) where
  | mk (name : Option T) (variable_definitions : List (VariableDefinition T))
      (selection_set : SelectionSet T)

/-- Modelled from the spec: a typed `subscription` operation (§3). -/
inductive Subscription (T : Type) where
  | mk (name : Option T) (variable_definitions : List (VariableDefinition T))
      (selection_set : SelectionSet T)

/-- Modelled from the spec: one operation — exactly one of a bare selection
set, `Query`, `Mutation`, `Subscription` (§3). -/
inductive OperationDefinition (T : Type) where
  | SelectionSet : SelectionSet T → OperationDefinition T
  | Query : Query T → OperationDefinition T
  | Mutation : Mutation T → OperationDefinition T
  | Subscription : Subscription T → OperationDefinition T

/-- Modelled from the spec: a named reusable selection holding one selection
set (§3). -/
inductive FragmentDefinition (T : Type) where
  | mk (name : T) (selection_set : SelectionSet T)

/-- Modelled from the spec: one top-level entry — exactly one of an
operation definition or a fragment definition (§3). -/
inductive Definition (T : Type) where
  | Operation : OperationDefinition T → Definition T
  | Fragment : FragmentDefinition T → Definition T

end

/-- Modelled from the spec: the root node, an ordered sequence of
definitions (§3). -/
structure Document (T : Type) where
  definitions : List (Definition T)

def Field.name : Field T → T
  | .mk n _ => n

def Field.selection_set : Field T → SelectionSet T
  | .mk _ ss => ss

def InlineFragment.selection_set : InlineFragment T → SelectionSet T
  | .mk ss => ss

def SelectionSet.items : SelectionSet T → List (Selection T)
  | .mk xs => xs

def Query.variable_definitions : Query T → List (VariableDefinition T)
  | .mk _ vs _ => vs

def Query.selection_set : Query T → SelectionSet T
  | .mk _ _ ss => ss

def Mutation.variable_definitions : Mutation T → List (VariableDefinition T)
  | .mk _ vs _ => vs

def Mutation.selection_set : Mutation T → SelectionSet T
  | .mk _ _ ss => ss

def Subscription.variable_definitions : Subscription T → List (VariableDefinition T)
  | .mk _ vs _ => vs

def Subscription.selection_set : Subscription T → SelectionSet T
  | .mk _ _ ss => ss

def FragmentDefinition.name : FragmentDefinition T → T
  | .mk n _ => n

def FragmentDefinition.selection_set : FragmentDefinition T → SelectionSet T
  | .mk _ ss => ss

/-- The `QueryVisitor` trait of `query_visitor.rs` lines 63-89: one hook per
node kind, each with a default no-op body.  A Rust implementor's `&mut self`
state is made explicit as a state type `S`; each hook maps the current state
and the borrowed node to the next state.  The default for every hook is the
identity on the state, mirroring the empty `{}` default bodies. -/
structure QueryVisitor (S T : Type) where
  visit_document : S → Document T → S := fun s _ => s
  visit_definition : S → Definition T → S := fun s _ => s
  visit_fragment_definition : S → FragmentDefinition T → S := fun s _ => s
  visit_operation_definition : S → OperationDefinition T → S := fun s _ => s
  visit_query : S → Query T → S := fun s _ => s
  visit_mutation : S → Mutation T → S := fun s _ => s
  visit_subscription : S → Subscription T → S := fun s _ => s
  visit_selection_set : S → SelectionSet T → S := fun s _ => s
  visit_variable_definition : S → VariableDefinition T → S := fun s _ => s
  visit_selection : S → Selection T → S := fun s _ => s
  visit_field : S → Field T → S := fun s _ => s
  visit_fragment_spread : S → FragmentSpread T → S := fun s _ => s
  visit_inline_fragment : S → InlineFragment T → S := fun s _ => s

/-- `walk_variable_definition` (lines 178-180): invoke the hook only, a
leaf. -/
def walk_variable_definition (v : QueryVisitor S T) (s : S)
    (node : VariableDefinition T) : S :=
  v.visit_variable_definition s node

/-- The `for var_def in &node.variable_definitions` loops of
`walk_query` / `walk_mutation` / `walk_subscription`, as list recursion. -/
def walk_variable_definition_list (v : QueryVisitor S T) (s : S) :
    List (VariableDefinition T) → S
  | [] => s
  | d :: ds => walk_variable_definition_list v (walk_variable_definition v s d) ds

/-- `walk_fragment_spread` (lines 203-205): invoke the hook only, a leaf. -/
def walk_fragment_spread (v : QueryVisitor S T) (s : S)
    (node : FragmentSpread T) : S :=
  v.visit_fragment_spread s node

mutual

/-- `walk_document` (lines 95-100): `visit_document`, then each definition
in order. -/
def walk_document (v : QueryVisitor S T) (s : S) (node : Document T) : S :=
  walk_definition_list v (v.visit_document s node) node.definitions

/-- The `for def in &node.definitions` loop of `walk_document`. -/
def walk_definition_list (v : QueryVisitor S T) (s : S) :
    List (Definition T) → S
  | [] => s
  | d :: ds => walk_definition_list v (walk_definition v s d) ds

/-- `walk_definition` (lines 102-114): `visit_definition`, then exhaustive
dispatch on the variant. -/
def walk_definition (v : QueryVisitor S T) (s : S) (node : Definition T) : S :=
  match node with
  | .Operation inner => walk_operation_definition v (v.visit_definition s node) inner
  | .Fragment inner => walk_fragment_definition v (v.visit_definition s node) inner

/-- `walk_fragment_definition` (lines 116-118): the source body walks the
fragment's selection set and nothing else — in particular it never calls
`visit_fragment_definition`. -/
def walk_fragment_definition (v : QueryVisitor S T) (s : S)
    (node : FragmentDefinition T) : S :=
  match node with
  | .mk _ ss => walk_selection_set v s ss

/-- `walk_operation_definition` (lines 120-138): `visit_operation_definition`,
then exhaustive dispatch on the variant. -/
def walk_operation_definition (v : QueryVisitor S T) (s : S)
    (node : OperationDefinition T) : S :=
  match node with
  | .SelectionSet inner =>
      walk_selection_set v (v.visit_operation_definition s node) inner
  | .Query inner => walk_query v (v.visit_operation_definition s node) inner
  | .Mutation inner => walk_mutation v (v.visit_operation_definition s node) inner
  | .Subscription inner =>
      walk_subscription v (v.visit_operation_definition s node) inner

/-- `walk_query` (lines 140-148): `visit_query`, then each variable
definition in order, then the selection set. -/
def walk_query (v : QueryVisitor S T) (s : S) (node : Query T) : S :=
  match node with
  | .mk _ vars ss =>
      walk_selection_set v
        (walk_variable_definition_list v (v.visit_query s node) vars) ss

/-- `walk_mutation` (lines 150-158): `visit_mutation`, then each variable
definition in order, then the selection set. -/
def walk_mutation (v : QueryVisitor S T) (s : S) (node : Mutation T) : S :=
  match node with
  | .mk _ vars ss =>
      walk_selection_set v
        (walk_variable_definition_list v (v.visit_mutation s node) vars) ss

/-- `walk_subscription` (lines 160-168): `visit_subscription`, then each
variable definition in order, then the selection set. -/
def walk_subscription (v : QueryVisitor S T) (s : S) (node : Subscription T) : S :=
  match node with
  | .mk _ vars ss =>
      walk_selection_set v
        (walk_variable_definition_list v (v.visit_subscription s node) vars) ss

/-- `walk_selection_set` (lines 170-176): `visit_selection_set`, then each
selection in order. -/
def walk_selection_set (v : QueryVisitor S T) (s : S) (node : SelectionSet T) : S :=
  match node with
  | .mk items => walk_selection_list v (v.visit_selection_set s node) items

/-- The `for selection in &node.items` loop of `walk_selection_set`. -/
def walk_selection_list (v : QueryVisitor S T) (s : S) :
    List (Selection T) → S
  | [] => s
  | x :: xs => walk_selection_list v (walk_selection v s x) xs

/-- `walk_selection` (lines 182-197): `visit_selection`, then exhaustive
dispatch on the variant. -/
def walk_selection (v : QueryVisitor S T) (s : S) (node : Selection T) : S :=
  match node with
  | .Field inner => walk_field v (v.visit_selection s node) inner
  | .FragmentSpread inner =>
      walk_fragment_spread v (v.visit_selection s node) inner
  | .InlineFragment inner =>
      walk_inline_fragment v (v.visit_selection s node) inner

/-- `walk_field` (lines 199-201): the source body invokes `visit_field` and
returns — it does not recurse into the field's own selection set. -/
def walk_field (v : QueryVisitor S T) (s : S) (node : Field T) : S :=
  v.visit_field s node

/-- `walk_inline_fragment` (lines 207-210): `visit_inline_fragment`, then the
nested selection set. -/
def walk_inline_fragment (v : QueryVisitor S T) (s : S)
    (node : InlineFragment T) : S :=
  match node with
  | .mk ss => walk_selection_set v (v.visit_inline_fragment s node) ss

end

/-- One hook invocation, tagged with the node kind it belongs to and the node
it was handed.  A walk of the event-recording visitor produces the list of
hook invocations in invocation order. -/
inductive Event (T : Type) where
  | document : Document T → Event T
  | definition : Definition T → Event T
  | fragment_definition : FragmentDefinition T → Event T
  | operation_definition : OperationDefinition T → Event T
  | query : Query T → Event T
  | mutation : Mutation T → Event T
  | subscription : Subscription T → Event T
  | selection_set : SelectionSet T → Event T
  | variable_definition : VariableDefinition T → Event T
  | selection : Selection T → Event T
  | field : Field T → Event T
  | fragment_spread : FragmentSpread T → Event T
  | inline_fragment : InlineFragment T → Event T

/-- The thirteen node kinds of §3, one per visitor hook. -/
inductive EventKind where
  | document
  | definition
  | fragment_definition
  | operation_definition
  | query
  | mutation
  | subscription
  | selection_set
  | variable_definition
  | selection
  | field
  | fragment_spread
  | inline_fragment
deriving DecidableEq

def Event.kind : Event T → EventKind
  | .document _ => .document
  | .definition _ => .definition
  | .fragment_definition _ => .fragment_definition
  | .operation_definition _ => .operation_definition
  | .query _ => .query
  | .mutation _ => .mutation
  | .subscription _ => .subscription
  | .selection_set _ => .selection_set
  | .variable_definition _ => .variable_definition
  | .selection _ => .selection
  | .field _ => .field
  | .fragment_spread _ => .fragment_spread
  | .inline_fragment _ => .inline_fragment

/-- The all-hooks-overridden recording visitor: every hook appends its event
to the state, so the final state lists every hook invocation of the walk in
order. -/
def eventVisitor (T : Type) : QueryVisitor (List (Event T)) T where
  visit_document := fun s n => s ++ [.document n]
  visit_definition := fun s n => s ++ [.definition n]
  visit_fragment_definition := fun s n => s ++ [.fragment_definition n]
  visit_operation_definition := fun s n => s ++ [.operation_definition n]
  visit_query := fun s n => s ++ [.query n]
  visit_mutation := fun s n => s ++ [.mutation n]
  visit_subscription := fun s n => s ++ [.subscription n]
  visit_selection_set := fun s n => s ++ [.selection_set n]
  visit_variable_definition := fun s n => s ++ [.variable_definition n]
  visit_selection := fun s n => s ++ [.selection n]
  visit_field := fun s n => s ++ [.field n]
  visit_fragment_spread := fun s n => s ++ [.fragment_spread n]
  visit_inline_fragment := fun s n => s ++ [.inline_fragment n]

/-- The hook-invocation trace of `walk_document` started on an empty
record. -/
def traceDocument (node : Document T) : List (Event T) :=
  walk_document (eventVisitor T) [] node

def traceDefinition (node : Definition T) : List (Event T) :=
  walk_definition (eventVisitor T) [] node

def traceFragmentDefinition (node : FragmentDefinition T) : List (Event T) :=
  walk_fragment_definition (eventVisitor T) [] node

def traceOperationDefinition (node : OperationDefinition T) : List (Event T) :=
  walk_operation_definition (eventVisitor T) [] node

def traceQuery (node : Query T) : List (Event T) :=
  walk_query (eventVisitor T) [] node

def traceMutation (node : Mutation T) : List (Event T) :=
  walk_mutation (eventVisitor T) [] node

def traceSubscription (node : Subscription T) : List (Event T) :=
  walk_subscription (eventVisitor T) [] node

def traceSelectionSet (node : SelectionSet T) : List (Event T) :=
  walk_selection_set (eventVisitor T) [] node

def traceVariableDefinition (node : VariableDefinition T) : List (Event T) :=
  walk_variable_definition (eventVisitor T) [] node

def traceSelection (node : Selection T) : List (Event T) :=
  walk_selection (eventVisitor T) [] node

def traceField (node : Field T) : List (Event T) :=
  walk_field (eventVisitor T) [] node

def traceFragmentSpread (node : FragmentSpread T) : List (Event T) :=
  walk_fragment_spread (eventVisitor T) [] node

def traceInlineFragment (node : InlineFragment T) : List (Event T) :=
  walk_inline_fragment (eventVisitor T) [] node

/-- The visitor of the module's doc example and of the end-to-end scenario:
only `visit_field` is overridden, to increment a counter. -/
def fieldCounter (T : Type) : QueryVisitor Nat T where
  visit_field := fun s _ => s + 1

/-- A second, independently written copy of `fieldCounter` with the same
initial state convention and the same hook logic. -/
def fieldCounterTwin (T : Type) : QueryVisitor Nat T where
  visit_field := fun s _ => s + 1

/-- A visitor with every hook overridden to increment a shared counter. -/
def allHooksCounter (T : Type) : QueryVisitor Nat T where
  visit_document := fun s _ => s + 1
  visit_definition := fun s _ => s + 1
  visit_fragment_definition := fun s _ => s + 1
  visit_operation_definition := fun s _ => s + 1
  visit_query := fun s _ => s + 1
  visit_mutation := fun s _ => s + 1
  visit_subscription := fun s _ => s + 1
  visit_selection_set := fun s _ => s + 1
  visit_variable_definition := fun s _ => s + 1
  visit_selection := fun s _ => s + 1
  visit_field := fun s _ => s + 1
  visit_fragment_spread := fun s _ => s + 1
  visit_inline_fragment := fun s _ => s + 1

/-- A visitor recording each visited field's name in visitation order. -/
def fieldNameRecorder (T : Type) : QueryVisitor (List T) T where
  visit_field := fun s n => s ++ [n.name]

/-- A visitor that overrides no hooks: every hook keeps its default no-op
body. -/
def noopVisitor (S T : Type) : QueryVisitor S T := {}

mutual

/-- Modelled from the spec: the total node count of a tree, counting one node
for each entry of the §3 node-kind table it contains (union-typed wrapper
nodes such as `Definition`, `OperationDefinition` and `Selection` count in
addition to the variant they hold, matching the separate hooks they have). -/
def specNodeCountDocument : Document T → Nat
  | ⟨defs⟩ => 1 + specNodeCountDefinitionList defs

def specNodeCountDefinitionList : List (Definition T) → Nat
  | [] => 0
  | d :: ds => specNodeCountDefinition d + specNodeCountDefinitionList ds

def specNodeCountDefinition : Definition T → Nat
  | .Operation inner => 1 + specNodeCountOperationDefinition inner
  | .Fragment inner => 1 + specNodeCountFragmentDefinition inner

def specNodeCountFragmentDefinition : FragmentDefinition T → Nat
  | .mk _ ss => 1 + specNodeCountSelectionSet ss

def specNodeCountOperationDefinition : OperationDefinition T → Nat
  | .SelectionSet inner => 1 + specNodeCountSelectionSet inner
  | .Query inner => 1 + specNodeCountQuery inner
  | .Mutation inner => 1 + specNodeCountMutation inner
  | .Subscription inner => 1 + specNodeCountSubscription inner

def specNodeCountQuery : Query T → Nat
  | .mk _ vars ss =>
      1 + specNodeCountVariableDefinitionList vars + specNodeCountSelectionSet ss

def specNodeCountMutation : Mutation T → Nat
  | .mk _ vars ss =>
      1 + specNodeCountVariableDefinitionList vars + specNodeCountSelectionSet ss

def specNodeCountSubscription : Subscription T → Nat
  | .mk _ vars ss =>
      1 + specNodeCountVariableDefinitionList vars + specNodeCountSelectionSet ss

def specNodeCountVariableDefinitionList : List (VariableDefinition T) → Nat
  | [] => 0
  | _ :: vs => 1 + specNodeCountVariableDefinitionList vs

def specNodeCountSelectionSet : SelectionSet T → Nat
  | .mk items => 1 + specNodeCountSelectionList items

def specNodeCountSelectionList : List (Selection T) → Nat
  | [] => 0
  | x :: xs => specNodeCountSelection x + specNodeCountSelectionList xs

def specNodeCountSelection : Selection T → Nat
  | .Field inner => 1 + specNodeCountField inner
  | .FragmentSpread _ => 1 + 1
  | .InlineFragment inner => 1 + specNodeCountInlineFragment inner

def specNodeCountField : Field T → Nat
  | .mk _ ss => 1 + specNodeCountSelectionSet ss

def specNodeCountInlineFragment : InlineFragment T → Nat
  | .mk ss => 1 + specNodeCountSelectionSet ss

end

/-- An empty selection set. -/
def emptySS : SelectionSet String := .mk []

/-- The tree of the end-to-end scenario
`query Q { users { id country { id } } }`: one query whose selection set
contains a field `users`, whose own selection set contains fields `id` and
`country`, the latter containing one field `id`. -/
def scenarioDoc : Document String :=
  ⟨[.Operation (.Query (.mk (some "Q") []
    (.mk [.Field (.mk "users"
      (.mk [.Field (.mk "id" emptySS),
            .Field (.mk "country" (.mk [.Field (.mk "id" emptySS)]))]))])))]⟩

/-- A document holding a single fragment definition with an empty selection
set: four nodes (document, definition, fragment definition, selection
set). -/
def fragmentOnlyDoc : Document String :=
  ⟨[.Fragment (.mk "F" (.mk []))]⟩

/-- A document exercising every variant of §3: a bare-selection-set
operation holding a fragment spread, a query with a variable definition and
a field, a mutation holding an inline fragment, a subscription, and a
fragment definition. -/
def allVariantsDoc : Document String :=
  ⟨[.Operation (.SelectionSet (.mk [.FragmentSpread (.mk "F")])),
    .Operation (.Query (.mk (some "Q") [.mk "v"]
      (.mk [.Field (.mk "f" emptySS)]))),
    .Operation (.Mutation (.mk (some "M") [] (.mk [.InlineFragment (.mk (.mk []))]))),
    .Operation (.Subscription (.mk (some "S") [] (.mk []))),
    .Fragment (.mk "F" (.mk []))]⟩

/-- Fuel-based variant of the variable-definition loop: one unit of fuel per
call, `none` when the fuel runs out.  Together with the other `_fuel`
functions this models the walker as unbounded recursion whose termination is
not assumed; finding sufficient fuel for every input is the termination
proof. -/
def walk_variable_definition_list_fuel :
    Nat → QueryVisitor S T → S → List (VariableDefinition T) → Option S
  | 0, _, _, _ => none
  | _ + 1, _, s, [] => some s
  | n + 1, v, s, d :: ds =>
      walk_variable_definition_list_fuel n v (walk_variable_definition v s d) ds

mutual

/-- Fuel-based `walk_document`: same body as `walk_document`, but every call
consumes one unit of fuel and returns `none` when fuel is exhausted. -/
def walk_document_fuel : Nat → QueryVisitor S T → S → Document T → Option S
  | 0, _, _, _ => none
  | n + 1, v, s, node =>
      walk_definition_list_fuel n v (v.visit_document s node) node.definitions

def walk_definition_list_fuel :
    Nat → QueryVisitor S T → S → List (Definition T) → Option S
  | 0, _, _, _ => none
  | _ + 1, _, s, [] => some s
  | n + 1, v, s, d :: ds =>
      match walk_definition_fuel n v s d with
      | none => none
      | some s2 => walk_definition_list_fuel n v s2 ds

def walk_definition_fuel : Nat → QueryVisitor S T → S → Definition T → Option S
  | 0, _, _, _ => none
  | n + 1, v, s, node =>
      match node with
      | .Operation inner =>
          walk_operation_definition_fuel n v (v.visit_definition s node) inner
      | .Fragment inner =>
          walk_fragment_definition_fuel n v (v.visit_definition s node) inner

def walk_fragment_definition_fuel :
    Nat → QueryVisitor S T → S → FragmentDefinition T → Option S
  | 0, _, _, _ => none
  | n + 1, v, s, .mk _ ss => walk_selection_set_fuel n v s ss

def walk_operation_definition_fuel :
    Nat → QueryVisitor S T → S → OperationDefinition T → Option S
  | 0, _, _, _ => none
  | n + 1, v, s, node =>
      match node with
      | .SelectionSet inner =>
          walk_selection_set_fuel n v (v.visit_operation_definition s node) inner
      | .Query inner => walk_query_fuel n v (v.visit_operation_definition s node) inner
      | .Mutation inner =>
          walk_mutation_fuel n v (v.visit_operation_definition s node) inner
      | .Subscription inner =>
          walk_subscription_fuel n v (v.visit_operation_definition s node) inner

def walk_query_fuel : Nat → QueryVisitor S T → S → Query T → Option S
  | 0, _, _, _ => none
  | n + 1, v, s, node =>
      match node with
      | .mk _ vars ss =>
          match walk_variable_definition_list_fuel n v (v.visit_query s node) vars with
          | none => none
          | some s2 => walk_selection_set_fuel n v s2 ss

def walk_mutation_fuel : Nat → QueryVisitor S T → S → Mutation T → Option S
  | 0, _, _, _ => none
  | n + 1, v, s, node =>
      match node with
      | .mk _ vars ss =>
          match walk_variable_definition_list_fuel n v (v.visit_mutation s node) vars with
          | none => none
          | some s2 => walk_selection_set_fuel n v s2 ss

def walk_subscription_fuel : Nat → QueryVisitor S T → S → Subscription T → Option S
  | 0, _, _, _ => none
  | n + 1, v, s, node =>
      match node with
      | .mk _ vars ss =>
          match walk_variable_definition_list_fuel n v (v.visit_subscription s node) vars with
          | none => none
          | some s2 => walk_selection_set_fuel n v s2 ss

def walk_selection_set_fuel :
    Nat → QueryVisitor S T → S → SelectionSet T → Option S
  | 0, _, _, _ => none
  | n + 1, v, s, node =>
      match node with
      | .mk items => walk_selection_list_fuel n v (v.visit_selection_set s node) items

def walk_selection_list_fuel :
    Nat → QueryVisitor S T → S → List (Selection T) → Option S
  | 0, _, _, _ => none
  | _ + 1, _, s, [] => some s
  | n + 1, v, s, x :: xs =>
      match walk_selection_fuel n v s x with
      | none => none
      | some s2 => walk_selection_list_fuel n v s2 xs

def walk_selection_fuel : Nat → QueryVisitor S T → S → Selection T → Option S
  | 0, _, _, _ => none
  | n + 1, v, s, node =>
      match node with
      | .Field inner => some (walk_field v (v.visit_selection s node) inner)
      | .FragmentSpread inner =>
          some (walk_fragment_spread v (v.visit_selection s node) inner)
      | .InlineFragment inner =>
          walk_inline_fragment_fuel n v (v.visit_selection s node) inner

def walk_inline_fragment_fuel :
    Nat → QueryVisitor S T → S → InlineFragment T → Option S
  | 0, _, _, _ => none
  | n + 1, v, s, node =>
      match node with
      | .mk ss => walk_selection_set_fuel n v (v.visit_inline_fragment s node) ss

end

/-- Fuel sufficient for the variable-definition loop. -/
def fuelBoundVariableDefinitionList : List (VariableDefinition T) → Nat
  | [] => 1
  | _ :: vs => 1 + fuelBoundVariableDefinitionList vs

mutual

/-- Fuel sufficient for `walk_document_fuel` on this tree. -/
def fuelBoundDocument : Document T → Nat
  | ⟨defs⟩ => 1 + fuelBoundDefinitionList defs

def fuelBoundDefinitionList : List (Definition T) → Nat
  | [] => 1
  | d :: ds => 1 + fuelBoundDefinition d + fuelBoundDefinitionList ds

def fuelBoundDefinition : Definition T → Nat
  | .Operation inner => 1 + fuelBoundOperationDefinition inner
  | .Fragment inner => 1 + fuelBoundFragmentDefinition inner

def fuelBoundFragmentDefinition : FragmentDefinition T → Nat
  | .mk _ ss => 1 + fuelBoundSelectionSet ss

def fuelBoundOperationDefinition : OperationDefinition T → Nat
  | .SelectionSet inner => 1 + fuelBoundSelectionSet inner
  | .Query inner => 1 + fuelBoundQuery inner
  | .Mutation inner => 1 + fuelBoundMutation inner
  | .Subscription inner => 1 + fuelBoundSubscription inner

def fuelBoundQuery : Query T → Nat
  | .mk _ vars ss =>
      1 + fuelBoundVariableDefinitionList vars + fuelBoundSelectionSet ss

def fuelBoundMutation : Mutation T → Nat
  | .mk _ vars ss =>
      1 + fuelBoundVariableDefinitionList vars + fuelBoundSelectionSet ss

def fuelBoundSubscription : Subscription T → Nat
  | .mk _ vars ss =>
      1 + fuelBoundVariableDefinitionList vars + fuelBoundSelectionSet ss

def fuelBoundSelectionSet : SelectionSet T → Nat
  | .mk items => 1 + fuelBoundSelectionList items

def fuelBoundSelectionList : List (Selection T) → Nat
  | [] => 1
  | x :: xs => 1 + fuelBoundSelection x + fuelBoundSelectionList xs

def fuelBoundSelection : Selection T → Nat
  | .Field _ => 1
  | .FragmentSpread _ => 1
  | .InlineFragment inner => 1 + fuelBoundInlineFragment inner

def fuelBoundInlineFragment : InlineFragment T → Nat
  | .mk ss => 1 + fuelBoundSelectionSet ss

end

/-- The node kinds whose hooks fire, in order, when the all-variants tree is
walked by the all-hooks recording visitor. -/
def allVariantsKinds : List EventKind :=
  (traceDocument allVariantsDoc).map Event.kind

/-- Walking a variable-definition sequence with the recording visitor appends
one event per variable definition, in declared order, after whatever was
already recorded. -/
theorem walk_variable_definition_list_event_acc (vs : List (VariableDefinition T)) :
    ∀ acc, walk_variable_definition_list (eventVisitor T) acc vs =
      acc ++ (vs.map traceVariableDefinition).flatten := by
  induction vs with
  | nil => intro acc; simp [walk_variable_definition_list]
  | cons d ds ih =>
    intro acc
    simp only [walk_variable_definition_list, List.map_cons, List.flatten_cons]
    rw [ih]
    simp [walk_variable_definition, traceVariableDefinition, eventVisitor,
      List.append_assoc]

mutual

/-- Recording walk of a definition sequence = prior record, then the
definitions' traces concatenated in declared order. -/
theorem walk_definition_list_event_acc :
    (ds : List (Definition T)) → ∀ acc,
      walk_definition_list (eventVisitor T) acc ds =
        acc ++ (ds.map traceDefinition).flatten
  | [] => by intro acc; simp [walk_definition_list]
  | d :: ds => by
    intro acc
    simp only [walk_definition_list, List.map_cons, List.flatten_cons]
    rw [walk_definition_list_event_acc ds, walk_definition_event_acc d]
    simp [List.append_assoc]

/-- Recording walk of a definition = prior record, then the definition's own
trace. -/
theorem walk_definition_event_acc :
    (node : Definition T) → ∀ acc,
      walk_definition (eventVisitor T) acc node = acc ++ traceDefinition node
  | .Operation od => by
    intro acc
    simp only [walk_definition, traceDefinition]
    rw [walk_operation_definition_event_acc od, walk_operation_definition_event_acc od]
    simp [eventVisitor, List.append_assoc]
  | .Fragment fd => by
    intro acc
    simp only [walk_definition, traceDefinition]
    rw [walk_fragment_definition_event_acc fd, walk_fragment_definition_event_acc fd]
    simp [eventVisitor, List.append_assoc]

/-- Recording walk of a fragment definition = prior record, then the
fragment definition's own trace. -/
theorem walk_fragment_definition_event_acc :
    (node : FragmentDefinition T) → ∀ acc,
      walk_fragment_definition (eventVisitor T) acc node =
        acc ++ traceFragmentDefinition node
  | .mk n ss => by
    intro acc
    simp only [walk_fragment_definition, traceFragmentDefinition]
    rw [walk_selection_set_event_acc ss, walk_selection_set_event_acc ss]
    simp

/-- Recording walk of an operation definition = prior record, then the
operation definition's own trace. -/
theorem walk_operation_definition_event_acc :
    (node : OperationDefinition T) → ∀ acc,
      walk_operation_definition (eventVisitor T) acc node =
        acc ++ traceOperationDefinition node
  | .SelectionSet inner => by
    intro acc
    simp only [walk_operation_definition, traceOperationDefinition]
    rw [walk_selection_set_event_acc inner, walk_selection_set_event_acc inner]
    simp [eventVisitor, List.append_assoc]
  | .Query inner => by
    intro acc
    simp only [walk_operation_definition, traceOperationDefinition]
    rw [walk_query_event_acc inner, walk_query_event_acc inner]
    simp [eventVisitor, List.append_assoc]
  | .Mutation inner => by
    intro acc
    simp only [walk_operation_definition, traceOperationDefinition]
    rw [walk_mutation_event_acc inner, walk_mutation_event_acc inner]
    simp [eventVisitor, List.append_assoc]
  | .Subscription inner => by
    intro acc
    simp only [walk_operation_definition, traceOperationDefinition]
    rw [walk_subscription_event_acc inner, walk_subscription_event_acc inner]
    simp [eventVisitor, List.append_assoc]

/-- Recording walk of a query = prior record, then the query's own trace. -/
theorem walk_query_event_acc :
    (node : Query T) → ∀ acc,
      walk_query (eventVisitor T) acc node = acc ++ traceQuery node
  | .mk n vars ss => by
    intro acc
    simp only [walk_query, traceQuery]
    rw [walk_variable_definition_list_event_acc vars,
      walk_variable_definition_list_event_acc vars,
      walk_selection_set_event_acc ss, walk_selection_set_event_acc ss]
    simp [eventVisitor, List.append_assoc]

/-- Recording walk of a mutation = prior record, then the mutation's own
trace. -/
theorem walk_mutation_event_acc :
    (node : Mutation T) → ∀ acc,
      walk_mutation (eventVisitor T) acc node = acc ++ traceMutation node
  | .mk n vars ss => by
    intro acc
    simp only [walk_mutation, traceMutation]
    rw [walk_variable_definition_list_event_acc vars,
      walk_variable_definition_list_event_acc vars,
      walk_selection_set_event_acc ss, walk_selection_set_event_acc ss]
    simp [eventVisitor, List.append_assoc]

/-- Recording walk of a subscription = prior record, then the subscription's
own trace. -/
theorem walk_subscription_event_acc :
    (node : Subscription T) → ∀ acc,
      walk_subscription (eventVisitor T) acc node = acc ++ traceSubscription node
  | .mk n vars ss => by
    intro acc
    simp only [walk_subscription, traceSubscription]
    rw [walk_variable_definition_list_event_acc vars,
      walk_variable_definition_list_event_acc vars,
      walk_selection_set_event_acc ss, walk_selection_set_event_acc ss]
    simp [eventVisitor, List.append_assoc]

/-- Recording walk of a selection set = prior record, then the selection
set's own trace. -/
theorem walk_selection_set_event_acc :
    (node : SelectionSet T) → ∀ acc,
      walk_selection_set (eventVisitor T) acc node =
        acc ++ traceSelectionSet node
  | .mk items => by
    intro acc
    simp only [walk_selection_set, traceSelectionSet]
    rw [walk_selection_list_event_acc items, walk_selection_list_event_acc items]
    simp [eventVisitor, List.append_assoc]

/-- Recording walk of a selection sequence = prior record, then the
selections' traces concatenated in declared order. -/
theorem walk_selection_list_event_acc :
    (xs : List (Selection T)) → ∀ acc,
      walk_selection_list (eventVisitor T) acc xs =
        acc ++ (xs.map traceSelection).flatten
  | [] => by intro acc; simp [walk_selection_list]
  | x :: xs => by
    intro acc
    simp only [walk_selection_list, List.map_cons, List.flatten_cons]
    rw [walk_selection_list_event_acc xs, walk_selection_event_acc x]
    simp [List.append_assoc]

/-- Recording walk of a selection = prior record, then the selection's own
trace. -/
theorem walk_selection_event_acc :
    (node : Selection T) → ∀ acc,
      walk_selection (eventVisitor T) acc node = acc ++ traceSelection node
  | .Field f => by
    intro acc
    simp only [walk_selection, traceSelection]
    simp [walk_field, eventVisitor, List.append_assoc]
  | .FragmentSpread fs => by
    intro acc
    simp only [walk_selection, traceSelection]
    simp [walk_fragment_spread, eventVisitor, List.append_assoc]
  | .InlineFragment i => by
    intro acc
    simp only [walk_selection, traceSelection]
    rw [walk_inline_fragment_event_acc i, walk_inline_fragment_event_acc i]
    simp [eventVisitor, List.append_assoc]

/-- Recording walk of an inline fragment = prior record, then the inline
fragment's own trace. -/
theorem walk_inline_fragment_event_acc :
    (node : InlineFragment T) → ∀ acc,
      walk_inline_fragment (eventVisitor T) acc node =
        acc ++ traceInlineFragment node
  | .mk ss => by
    intro acc
    simp only [walk_inline_fragment, traceInlineFragment]
    rw [walk_selection_set_event_acc ss, walk_selection_set_event_acc ss]
    simp [eventVisitor, List.append_assoc]

end

/-- Recording walk of a document = prior record, then the document's own
trace. -/
theorem walk_document_event_acc (node : Document T) (acc : List (Event T)) :
    walk_document (eventVisitor T) acc node = acc ++ traceDocument node := by
  cases node with
  | mk defs =>
    simp only [walk_document, traceDocument]
    rw [walk_definition_list_event_acc defs, walk_definition_list_event_acc defs]
    simp [eventVisitor, List.append_assoc]

/-- The default-hooks visitor leaves the state unchanged on the
variable-definition loop. -/
theorem walk_variable_definition_list_noop (vs : List (VariableDefinition T)) :
    ∀ s : S, walk_variable_definition_list (noopVisitor S T) s vs = s := by
  induction vs with
  | nil => intro s; simp [walk_variable_definition_list]
  | cons d ds ih =>
    intro s
    simp only [walk_variable_definition_list]
    rw [ih]
    simp [walk_variable_definition, noopVisitor]

mutual

theorem walk_definition_list_noop :
    (ds : List (Definition T)) → ∀ s : S,
      walk_definition_list (noopVisitor S T) s ds = s
  | [] => by intro s; simp [walk_definition_list]
  | d :: ds => by
    intro s
    simp only [walk_definition_list]
    rw [walk_definition_list_noop ds, walk_definition_noop d]

theorem walk_definition_noop :
    (node : Definition T) → ∀ s : S, walk_definition (noopVisitor S T) s node = s
  | .Operation od => by
    intro s
    simp only [walk_definition]
    rw [walk_operation_definition_noop od]
    simp [noopVisitor]
  | .Fragment fd => by
    intro s
    simp only [walk_definition]
    rw [walk_fragment_definition_noop fd]
    simp [noopVisitor]

theorem walk_fragment_definition_noop :
    (node : FragmentDefinition T) → ∀ s : S,
      walk_fragment_definition (noopVisitor S T) s node = s
  | .mk n ss => by
    intro s
    simp only [walk_fragment_definition]
    rw [walk_selection_set_noop ss]

theorem walk_operation_definition_noop :
    (node : OperationDefinition T) → ∀ s : S,
      walk_operation_definition (noopVisitor S T) s node = s
  | .SelectionSet inner => by
    intro s
    simp only [walk_operation_definition]
    rw [walk_selection_set_noop inner]
    simp [noopVisitor]
  | .Query inner => by
    intro s
    simp only [walk_operation_definition]
    rw [walk_query_noop inner]
    simp [noopVisitor]
  | .Mutation inner => by
    intro s
    simp only [walk_operation_definition]
    rw [walk_mutation_noop inner]
    simp [noopVisitor]
  | .Subscription inner => by
    intro s
    simp only [walk_operation_definition]
    rw [walk_subscription_noop inner]
    simp [noopVisitor]

theorem walk_query_noop :
    (node : Query T) → ∀ s : S, walk_query (noopVisitor S T) s node = s
  | .mk n vars ss => by
    intro s
    simp only [walk_query]
    rw [walk_selection_set_noop ss, walk_variable_definition_list_noop vars]
    simp [noopVisitor]

theorem walk_mutation_noop :
    (node : Mutation T) → ∀ s : S, walk_mutation (noopVisitor S T) s node = s
  | .mk n vars ss => by
    intro s
    simp only [walk_mutation]
    rw [walk_selection_set_noop ss, walk_variable_definition_list_noop vars]
    simp [noopVisitor]

theorem walk_subscription_noop :
    (node : Subscription T) → ∀ s : S, walk_subscription (noopVisitor S T) s node = s
  | .mk n vars ss => by
    intro s
    simp only [walk_subscription]
    rw [walk_selection_set_noop ss, walk_variable_definition_list_noop vars]
    simp [noopVisitor]

theorem walk_selection_set_noop :
    (node : SelectionSet T) → ∀ s : S, walk_selection_set (noopVisitor S T) s node = s
  | .mk items => by
    intro s
    simp only [walk_selection_set]
    rw [walk_selection_list_noop items]
    simp [noopVisitor]

theorem walk_selection_list_noop :
    (xs : List (Selection T)) → ∀ s : S,
      walk_selection_list (noopVisitor S T) s xs = s
  | [] => by intro s; simp [walk_selection_list]
  | x :: xs => by
    intro s
    simp only [walk_selection_list]
    rw [walk_selection_list_noop xs, walk_selection_noop x]

theorem walk_selection_noop :
    (node : Selection T) → ∀ s : S, walk_selection (noopVisitor S T) s node = s
  | .Field f => by
    intro s
    simp [walk_selection, walk_field, noopVisitor]
  | .FragmentSpread fs => by
    intro s
    simp [walk_selection, walk_fragment_spread, noopVisitor]
  | .InlineFragment i => by
    intro s
    simp only [walk_selection]
    rw [walk_inline_fragment_noop i]
    simp [noopVisitor]

theorem walk_inline_fragment_noop :
    (node : InlineFragment T) → ∀ s : S,
      walk_inline_fragment (noopVisitor S T) s node = s
  | .mk ss => by
    intro s
    simp only [walk_inline_fragment]
    rw [walk_selection_set_noop ss]
    simp [noopVisitor]

end

/-- The default-hooks visitor leaves the state unchanged on a whole
document walk. -/
theorem walk_document_noop (node : Document T) (s : S) :
    walk_document (noopVisitor S T) s node = s := by
  cases node with
  | mk defs =>
    simp only [walk_document]
    rw [walk_definition_list_noop defs]
    simp [noopVisitor]

/-- The variable-definition loop succeeds whenever it is given at least its
fuel bound. -/
theorem walk_variable_definition_list_fuel_spec (v : QueryVisitor S T)
    (vs : List (VariableDefinition T)) :
    ∀ n s, fuelBoundVariableDefinitionList vs ≤ n →
      walk_variable_definition_list_fuel n v s vs =
        some (walk_variable_definition_list v s vs) := by
  induction vs with
  | nil =>
    intro n s h
    cases n with
    | zero => simp only [fuelBoundVariableDefinitionList] at h; omega
    | succ m => simp [walk_variable_definition_list_fuel, walk_variable_definition_list]
  | cons d ds ih =>
    intro n s h
    cases n with
    | zero => simp only [fuelBoundVariableDefinitionList] at h; omega
    | succ m =>
      simp only [walk_variable_definition_list_fuel, walk_variable_definition_list]
      exact ih m _ (by simp only [fuelBoundVariableDefinitionList] at h; omega)

mutual

theorem walk_definition_list_fuel_spec (v : QueryVisitor S T) :
    (ds : List (Definition T)) → ∀ n s, fuelBoundDefinitionList ds ≤ n →
      walk_definition_list_fuel n v s ds = some (walk_definition_list v s ds)
  | [] => by
    intro n s h
    cases n with
    | zero => simp only [fuelBoundDefinitionList] at h; omega
    | succ m => simp [walk_definition_list_fuel, walk_definition_list]
  | d :: ds => by
    intro n s h
    cases n with
    | zero => simp only [fuelBoundDefinitionList] at h; omega
    | succ m =>
      simp only [walk_definition_list_fuel, walk_definition_list]
      rw [walk_definition_fuel_spec v d m s
        (by simp only [fuelBoundDefinitionList] at h; omega)]
      exact walk_definition_list_fuel_spec v ds m _
        (by simp only [fuelBoundDefinitionList] at h; omega)

theorem walk_definition_fuel_spec (v : QueryVisitor S T) :
    (node : Definition T) → ∀ n s, fuelBoundDefinition node ≤ n →
      walk_definition_fuel n v s node = some (walk_definition v s node)
  | .Operation od => by
    intro n s h
    cases n with
    | zero => simp only [fuelBoundDefinition] at h; omega
    | succ m =>
      simp only [walk_definition_fuel, walk_definition]
      exact walk_operation_definition_fuel_spec v od m _
        (by simp only [fuelBoundDefinition] at h; omega)
  | .Fragment fd => by
    intro n s h
    cases n with
    | zero => simp only [fuelBoundDefinition] at h; omega
    | succ m =>
      simp only [walk_definition_fuel, walk_definition]
      exact walk_fragment_definition_fuel_spec v fd m _
        (by simp only [fuelBoundDefinition] at h; omega)

theorem walk_fragment_definition_fuel_spec (v : QueryVisitor S T) :
    (node : FragmentDefinition T) → ∀ n s, fuelBoundFragmentDefinition node ≤ n →
      walk_fragment_definition_fuel n v s node =
        some (walk_fragment_definition v s node)
  | .mk nm ss => by
    intro n s h
    cases n with
    | zero => simp only [fuelBoundFragmentDefinition] at h; omega
    | succ m =>
      simp only [walk_fragment_definition_fuel, walk_fragment_definition]
      exact walk_selection_set_fuel_spec v ss m _
        (by simp only [fuelBoundFragmentDefinition] at h; omega)

theorem walk_operation_definition_fuel_spec (v : QueryVisitor S T) :
    (node : OperationDefinition T) → ∀ n s, fuelBoundOperationDefinition node ≤ n →
      walk_operation_definition_fuel n v s node =
        some (walk_operation_definition v s node)
  | .SelectionSet inner => by
    intro n s h
    cases n with
    | zero => simp only [fuelBoundOperationDefinition] at h; omega
    | succ m =>
      simp only [walk_operation_definition_fuel, walk_operation_definition]
      exact walk_selection_set_fuel_spec v inner m _
        (by simp only [fuelBoundOperationDefinition] at h; omega)
  | .Query inner => by
    intro n s h
    cases n with
    | zero => simp only [fuelBoundOperationDefinition] at h; omega
    | succ m =>
      simp only [walk_operation_definition_fuel, walk_operation_definition]
      exact walk_query_fuel_spec v inner m _
        (by simp only [fuelBoundOperationDefinition] at h; omega)
  | .Mutation inner => by
    intro n s h
    cases n with
    | zero => simp only [fuelBoundOperationDefinition] at h; omega
    | succ m =>
      simp only [walk_operation_definition_fuel, walk_operation_definition]
      exact walk_mutation_fuel_spec v inner m _
        (by simp only [fuelBoundOperationDefinition] at h; omega)
  | .Subscription inner => by
    intro n s h
    cases n with
    | zero => simp only [fuelBoundOperationDefinition] at h; omega
    | succ m =>
      simp only [walk_operation_definition_fuel, walk_operation_definition]
      exact walk_subscription_fuel_spec v inner m _
        (by simp only [fuelBoundOperationDefinition] at h; omega)

theorem walk_query_fuel_spec (v : QueryVisitor S T) :
    (node : Query T) → ∀ n s, fuelBoundQuery node ≤ n →
      walk_query_fuel n v s node = some (walk_query v s node)
  | .mk nm vars ss => by
    intro n s h
    cases n with
    | zero => simp only [fuelBoundQuery] at h; omega
    | succ m =>
      simp only [walk_query_fuel, walk_query]
      rw [walk_variable_definition_list_fuel_spec v vars m _
        (by simp only [fuelBoundQuery] at h; omega)]
      exact walk_selection_set_fuel_spec v ss m _
        (by simp only [fuelBoundQuery] at h; omega)

theorem walk_mutation_fuel_spec (v : QueryVisitor S T) :
    (node : Mutation T) → ∀ n s, fuelBoundMutation node ≤ n →
      walk_mutation_fuel n v s node = some (walk_mutation v s node)
  | .mk nm vars ss => by
    intro n s h
    cases n with
    | zero => simp only [fuelBoundMutation] at h; omega
    | succ m =>
      simp only [walk_mutation_fuel, walk_mutation]
      rw [walk_variable_definition_list_fuel_spec v vars m _
        (by simp only [fuelBoundMutation] at h; omega)]
      exact walk_selection_set_fuel_spec v ss m _
        (by simp only [fuelBoundMutation] at h; omega)

theorem walk_subscription_fuel_spec (v : QueryVisitor S T) :
    (node : Subscription T) → ∀ n s, fuelBoundSubscription node ≤ n →
      walk_subscription_fuel n v s node = some (walk_subscription v s node)
  | .mk nm vars ss => by
    intro n s h
    cases n with
    | zero => simp only [fuelBoundSubscription] at h; omega
    | succ m =>
      simp only [walk_subscription_fuel, walk_subscription]
      rw [walk_variable_definition_list_fuel_spec v vars m _
        (by simp only [fuelBoundSubscription] at h; omega)]
      exact walk_selection_set_fuel_spec v ss m _
        (by simp only [fuelBoundSubscription] at h; omega)

theorem walk_selection_set_fuel_spec (v : QueryVisitor S T) :
    (node : SelectionSet T) → ∀ n s, fuelBoundSelectionSet node ≤ n →
      walk_selection_set_fuel n v s node = some (walk_selection_set v s node)
  | .mk items => by
    intro n s h
    cases n with
    | zero => simp only [fuelBoundSelectionSet] at h; omega
    | succ m =>
      simp only [walk_selection_set_fuel, walk_selection_set]
      exact walk_selection_list_fuel_spec v items m _
        (by simp only [fuelBoundSelectionSet] at h; omega)

theorem walk_selection_list_fuel_spec (v : QueryVisitor S T) :
    (xs : List (Selection T)) → ∀ n s, fuelBoundSelectionList xs ≤ n →
      walk_selection_list_fuel n v s xs = some (walk_selection_list v s xs)
  | [] => by
    intro n s h
    cases n with
    | zero => simp only [fuelBoundSelectionList] at h; omega
    | succ m => simp [walk_selection_list_fuel, walk_selection_list]
  | x :: xs => by
    intro n s h
    cases n with
    | zero => simp only [fuelBoundSelectionList] at h; omega
    | succ m =>
      simp only [walk_selection_list_fuel, walk_selection_list]
      rw [walk_selection_fuel_spec v x m s
        (by simp only [fuelBoundSelectionList] at h; omega)]
      exact walk_selection_list_fuel_spec v xs m _
        (by simp only [fuelBoundSelectionList] at h; omega)

theorem walk_selection_fuel_spec (v : QueryVisitor S T) :
    (node : Selection T) → ∀ n s, fuelBoundSelection node ≤ n →
      walk_selection_fuel n v s node = some (walk_selection v s node)
  | .Field f => by
    intro n s h
    cases n with
    | zero => simp only [fuelBoundSelection] at h; omega
    | succ m => simp [walk_selection_fuel, walk_selection]
  | .FragmentSpread fs => by
    intro n s h
    cases n with
    | zero => simp only [fuelBoundSelection] at h; omega
    | succ m => simp [walk_selection_fuel, walk_selection]
  | .InlineFragment i => by
    intro n s h
    cases n with
    | zero => simp only [fuelBoundSelection] at h; omega
    | succ m =>
      simp only [walk_selection_fuel, walk_selection]
      exact walk_inline_fragment_fuel_spec v i m _
        (by simp only [fuelBoundSelection] at h; omega)

theorem walk_inline_fragment_fuel_spec (v : QueryVisitor S T) :
    (node : InlineFragment T) → ∀ n s, fuelBoundInlineFragment node ≤ n →
      walk_inline_fragment_fuel n v s node = some (walk_inline_fragment v s node)
  | .mk ss => by
    intro n s h
    cases n with
    | zero => simp only [fuelBoundInlineFragment] at h; omega
    | succ m =>
      simp only [walk_inline_fragment_fuel, walk_inline_fragment]
      exact walk_selection_set_fuel_spec v ss m _
        (by simp only [fuelBoundInlineFragment] at h; omega)

end

/-- `walk_document_fuel` succeeds, with the same answer as `walk_document`,
whenever it is given at least `fuelBoundDocument node` fuel. -/
theorem walk_document_fuel_spec (v : QueryVisitor S T) (node : Document T)
    (n : Nat) (s : S) (h : fuelBoundDocument node ≤ n) :
    walk_document_fuel n v s node = some (walk_document v s node) := by
  cases node with
  | mk defs =>
    cases n with
    | zero => simp only [fuelBoundDocument] at h; omega
    | succ m =>
      simp only [walk_document_fuel, walk_document]
      exact walk_definition_list_fuel_spec v defs m _
        (by simp only [fuelBoundDocument] at h; omega)

/-- Trace of a document: its own event, then the definitions' traces
concatenated in declared order. -/
theorem traceDocument_eq (d : Document T) :
    traceDocument d = Event.document d :: (d.definitions.map traceDefinition).flatten := by
  cases d with
  | mk defs =>
    simp only [traceDocument, walk_document]
    rw [walk_definition_list_event_acc defs]
    simp [eventVisitor]

/-- Trace of an operation-holding definition: its own event, then the
operation definition's trace. -/
theorem traceDefinition_operation (od : OperationDefinition T) :
    traceDefinition (.Operation od) =
      Event.definition (.Operation od) :: traceOperationDefinition od := by
  simp only [traceDefinition, walk_definition]
  rw [walk_operation_definition_event_acc od]
  simp [eventVisitor]

/-- Trace of a fragment-holding definition: its own event, then the fragment
definition's trace. -/
theorem traceDefinition_fragment (fd : FragmentDefinition T) :
    traceDefinition (.Fragment fd) =
      Event.definition (.Fragment fd) :: traceFragmentDefinition fd := by
  simp only [traceDefinition, walk_definition]
  rw [walk_fragment_definition_event_acc fd]
  simp [eventVisitor]

/-- Trace of a fragment definition: no event of its own (the source's
`walk_fragment_definition` never invokes `visit_fragment_definition`), just
the trace of its selection set. -/
theorem traceFragmentDefinition_eq (fd : FragmentDefinition T) :
    traceFragmentDefinition fd = traceSelectionSet fd.selection_set := by
  cases fd with
  | mk nm ss =>
    simp only [traceFragmentDefinition, walk_fragment_definition,
      FragmentDefinition.selection_set, traceSelectionSet]

/-- Trace of a bare-selection-set operation: its own event, then the
selection set's trace. -/
theorem traceOperationDefinition_selection_set (ss : SelectionSet T) :
    traceOperationDefinition (.SelectionSet ss) =
      Event.operation_definition (.SelectionSet ss) :: traceSelectionSet ss := by
  simp only [traceOperationDefinition, walk_operation_definition]
  rw [walk_selection_set_event_acc ss]
  simp [eventVisitor]

/-- Trace of a query operation: its own event, then the query's trace. -/
theorem traceOperationDefinition_query (q : Query T) :
    traceOperationDefinition (.Query q) =
      Event.operation_definition (.Query q) :: traceQuery q := by
  simp only [traceOperationDefinition, walk_operation_definition]
  rw [walk_query_event_acc q]
  simp [eventVisitor]

/-- Trace of a mutation operation: its own event, then the mutation's
trace. -/
theorem traceOperationDefinition_mutation (m : Mutation T) :
    traceOperationDefinition (.Mutation m) =
      Event.operation_definition (.Mutation m) :: traceMutation m := by
  simp only [traceOperationDefinition, walk_operation_definition]
  rw [walk_mutation_event_acc m]
  simp [eventVisitor]

/-- Trace of a subscription operation: its own event, then the
subscription's trace. -/
theorem traceOperationDefinition_subscription (m : Subscription T) :
    traceOperationDefinition (.Subscription m) =
      Event.operation_definition (.Subscription m) :: traceSubscription m := by
  simp only [traceOperationDefinition, walk_operation_definition]
  rw [walk_subscription_event_acc m]
  simp [eventVisitor]

/-- Trace of a query: its own event, then the variable definitions' traces
in declared order, then the selection set's trace. -/
theorem traceQuery_eq (q : Query T) :
    traceQuery q = Event.query q ::
      ((q.variable_definitions.map traceVariableDefinition).flatten ++
        traceSelectionSet q.selection_set) := by
  cases q with
  | mk nm vars ss =>
    simp only [traceQuery, walk_query, Query.variable_definitions, Query.selection_set]
    rw [walk_variable_definition_list_event_acc vars, walk_selection_set_event_acc ss]
    simp [eventVisitor, List.append_assoc]

/-- Trace of a mutation: its own event, then the variable definitions'
traces in declared order, then the selection set's trace. -/
theorem traceMutation_eq (m : Mutation T) :
    traceMutation m = Event.mutation m ::
      ((m.variable_definitions.map traceVariableDefinition).flatten ++
        traceSelectionSet m.selection_set) := by
  cases m with
  | mk nm vars ss =>
    simp only [traceMutation, walk_mutation, Mutation.variable_definitions,
      Mutation.selection_set]
    rw [walk_variable_definition_list_event_acc vars, walk_selection_set_event_acc ss]
    simp [eventVisitor, List.append_assoc]

/-- Trace of a subscription: its own event, then the variable definitions'
traces in declared order, then the selection set's trace. -/
theorem traceSubscription_eq (m : Subscription T) :
    traceSubscription m = Event.subscription m ::
      ((m.variable_definitions.map traceVariableDefinition).flatten ++
        traceSelectionSet m.selection_set) := by
  cases m with
  | mk nm vars ss =>
    simp only [traceSubscription, walk_subscription,
      Subscription.variable_definitions, Subscription.selection_set]
    rw [walk_variable_definition_list_event_acc vars, walk_selection_set_event_acc ss]
    simp [eventVisitor, List.append_assoc]

/-- Trace of a selection set: its own event, then the selections' traces
concatenated in declared order. -/
theorem traceSelectionSet_eq (ss : SelectionSet T) :
    traceSelectionSet ss =
      Event.selection_set ss :: (ss.items.map traceSelection).flatten := by
  cases ss with
  | mk items =>
    simp only [traceSelectionSet, walk_selection_set, SelectionSet.items]
    rw [walk_selection_list_event_acc items]
    simp [eventVisitor]

/-- Trace of a variable definition: exactly its own event. -/
theorem traceVariableDefinition_eq (vd : VariableDefinition T) :
    traceVariableDefinition vd = [Event.variable_definition vd] := by
  simp [traceVariableDefinition, walk_variable_definition, eventVisitor]

/-- Trace of a field-holding selection: its own event, then the field's
trace. -/
theorem traceSelection_field (f : Field T) :
    traceSelection (.Field f) =
      Event.selection (.Field f) :: traceField f := by
  simp [traceSelection, walk_selection, traceField, walk_field, eventVisitor]

/-- Trace of a spread-holding selection: its own event, then the fragment
spread's trace. -/
theorem traceSelection_fragment_spread (fs : FragmentSpread T) :
    traceSelection (.FragmentSpread fs) =
      Event.selection (.FragmentSpread fs) :: traceFragmentSpread fs := by
  simp [traceSelection, walk_selection, traceFragmentSpread,
    walk_fragment_spread, eventVisitor]

/-- Trace of an inline-fragment-holding selection: its own event, then the
inline fragment's trace. -/
theorem traceSelection_inline_fragment (i : InlineFragment T) :
    traceSelection (.InlineFragment i) =
      Event.selection (.InlineFragment i) :: traceInlineFragment i := by
  simp only [traceSelection, walk_selection]
  rw [walk_inline_fragment_event_acc i]
  simp [eventVisitor]

/-- Trace of a field: exactly its own event — the source's `walk_field`
does not descend into the field's nested selection set. -/
theorem traceField_eq (f : Field T) :
    traceField f = [Event.field f] := by
  simp [traceField, walk_field, eventVisitor]

/-- Trace of a fragment spread: exactly its own event. -/
theorem traceFragmentSpread_eq (fs : FragmentSpread T) :
    traceFragmentSpread fs = [Event.fragment_spread fs] := by
  simp [traceFragmentSpread, walk_fragment_spread, eventVisitor]

/-- Trace of an inline fragment: its own event first, then the nested
selection set's trace. -/
theorem traceInlineFragment_eq (i : InlineFragment T) :
    traceInlineFragment i =
      Event.inline_fragment i :: traceSelectionSet i.selection_set := by
  cases i with
  | mk ss =>
    simp only [traceInlineFragment, walk_inline_fragment,
      InlineFragment.selection_set]
    rw [walk_selection_set_event_acc ss]
    simp [eventVisitor]

/-- C1: evaluating the code at the end-to-end scenario input: walking the
document parsed from `query Q { users { id country { id } } }` with a
visitor that overrides only `visit_field` to increment a counter yields a
final counter of 1, not the 4 the spec claims — `walk_field` never recurses
into the field's nested selection set, so only the top-level field `users`
is ever visited. -/
theorem c1_scenario_field_count_is_one :
    walk_document (fieldCounter String) 0 scenarioDoc = 1 := by
  rfl

/-- C2: the counter of an all-hooks-overridden counting visitor does not
equal the total node count on every tree: on a document holding a single
fragment definition with an empty selection set, the walk fires 3 hooks
while the tree has 4 nodes, because `walk_fragment_definition` never invokes
`visit_fragment_definition`. -/
theorem c2_all_hooks_count_misses_fragment_definition :
    walk_document (allHooksCounter String) 0 fragmentOnlyDoc = 3 ∧
      specNodeCountDocument fragmentOnlyDoc = 4 := by
  constructor
  · rfl
  · rfl

/-- C3: on a tree exercising every variant of the grammar, the walk fires
hooks of 12 of the 13 node kinds: every kind except `fragment_definition`
appears in the invocation trace, and `visit_fragment_definition` is never
invoked because `walk_fragment_definition` omits the hook call. -/
theorem c3_twelve_of_thirteen_hooks_fire :
    EventKind.fragment_definition ∉ allVariantsKinds ∧
      EventKind.document ∈ allVariantsKinds ∧
      EventKind.definition ∈ allVariantsKinds ∧
      EventKind.operation_definition ∈ allVariantsKinds ∧
      EventKind.query ∈ allVariantsKinds ∧
      EventKind.mutation ∈ allVariantsKinds ∧
      EventKind.subscription ∈ allVariantsKinds ∧
      EventKind.selection_set ∈ allVariantsKinds ∧
      EventKind.variable_definition ∈ allVariantsKinds ∧
      EventKind.selection ∈ allVariantsKinds ∧
      EventKind.field ∈ allVariantsKinds ∧
      EventKind.fragment_spread ∈ allVariantsKinds ∧
      EventKind.inline_fragment ∈ allVariantsKinds := by
  decide

/-- C4: the walk is pre-order, depth-first and single-pass: for every node
kind, the hook-invocation trace of its walk function is its own hook event
first (when the node has one), followed by the complete traces of its
structural children concatenated in declared order — in particular an
inline fragment's event precedes every event from its nested selection set,
and sibling subtrees never interleave. -/
theorem c4_walk_preorder_depth_first_single_pass (T : Type) :
    (∀ d : Document T, traceDocument d =
        Event.document d :: (d.definitions.map traceDefinition).flatten) ∧
    (∀ od : OperationDefinition T, traceDefinition (.Operation od) =
        Event.definition (.Operation od) :: traceOperationDefinition od) ∧
    (∀ fd : FragmentDefinition T, traceDefinition (.Fragment fd) =
        Event.definition (.Fragment fd) :: traceFragmentDefinition fd) ∧
    (∀ fd : FragmentDefinition T,
        traceFragmentDefinition fd = traceSelectionSet fd.selection_set) ∧
    (∀ ss : SelectionSet T, traceOperationDefinition (.SelectionSet ss) =
        Event.operation_definition (.SelectionSet ss) :: traceSelectionSet ss) ∧
    (∀ q : Query T, traceOperationDefinition (.Query q) =
        Event.operation_definition (.Query q) :: traceQuery q) ∧
    (∀ m : Mutation T, traceOperationDefinition (.Mutation m) =
        Event.operation_definition (.Mutation m) :: traceMutation m) ∧
    (∀ m : Subscription T, traceOperationDefinition (.Subscription m) =
        Event.operation_definition (.Subscription m) :: traceSubscription m) ∧
    (∀ q : Query T, traceQuery q = Event.query q ::
        ((q.variable_definitions.map traceVariableDefinition).flatten ++
          traceSelectionSet q.selection_set)) ∧
    (∀ m : Mutation T, traceMutation m = Event.mutation m ::
        ((m.variable_definitions.map traceVariableDefinition).flatten ++
          traceSelectionSet m.selection_set)) ∧
    (∀ m : Subscription T, traceSubscription m = Event.subscription m ::
        ((m.variable_definitions.map traceVariableDefinition).flatten ++
          traceSelectionSet m.selection_set)) ∧
    (∀ ss : SelectionSet T, traceSelectionSet ss =
        Event.selection_set ss :: (ss.items.map traceSelection).flatten) ∧
    (∀ vd : VariableDefinition T,
        traceVariableDefinition vd = [Event.variable_definition vd]) ∧
    (∀ f : Field T, traceSelection (.Field f) =
        Event.selection (.Field f) :: traceField f) ∧
    (∀ fs : FragmentSpread T, traceSelection (.FragmentSpread fs) =
        Event.selection (.FragmentSpread fs) :: traceFragmentSpread fs) ∧
    (∀ i : InlineFragment T, traceSelection (.InlineFragment i) =
        Event.selection (.InlineFragment i) :: traceInlineFragment i) ∧
    (∀ f : Field T, traceField f = [Event.field f]) ∧
    (∀ fs : FragmentSpread T, traceFragmentSpread fs = [Event.fragment_spread fs]) ∧
    (∀ i : InlineFragment T, traceInlineFragment i =
        Event.inline_fragment i :: traceSelectionSet i.selection_set) :=
  ⟨traceDocument_eq, traceDefinition_operation, traceDefinition_fragment,
    traceFragmentDefinition_eq, traceOperationDefinition_selection_set,
    traceOperationDefinition_query, traceOperationDefinition_mutation,
    traceOperationDefinition_subscription, traceQuery_eq, traceMutation_eq,
    traceSubscription_eq, traceSelectionSet_eq, traceVariableDefinition_eq,
    traceSelection_field, traceSelection_fragment_spread,
    traceSelection_inline_fragment, traceField_eq, traceFragmentSpread_eq,
    traceInlineFragment_eq⟩

/-- C5: for every selection set containing fields named `a`, `b`, `c` in
that declared order, walking it with a visitor that records each visited
field's name yields exactly `[a, b, c]`. -/
theorem c5_field_names_recorded_in_declared_order
    (a b c : String) (sa sb sc : SelectionSet String) :
    walk_selection_set (fieldNameRecorder String) []
      (.mk [.Field (.mk a sa), .Field (.mk b sb), .Field (.mk c sc)]) =
      [a, b, c] := by
  rfl

/-- C6: walking any tree with a visitor that overrides no hooks leaves the
visitor's state unchanged: the whole walk is a pure no-op traversal. -/
theorem c6_noop_visitor_walk_is_identity :
    ∀ (S T : Type) (s : S) (node : Document T),
      walk_document (noopVisitor S T) s node = s :=
  fun _ _ s node => walk_document_noop node s

/-- C7: walking the same tree with two independently constructed but
logically identical counting visitors, from the same initial count, yields
identical final counts: the result of a walk is a function of the tree and
the visitor's initial state only. -/
theorem c7_walk_deterministic_across_identical_visitors :
    ∀ (T : Type) (node : Document T) (s : Nat),
      walk_document (fieldCounter T) s node =
        walk_document (fieldCounterTwin T) s node :=
  fun _ _ _ => rfl

/-- C8: the walk terminates on every finite tree: for every document there
is a fuel amount on which the fuel-instrumented walker (which models the
recursion as potentially non-terminating) runs to completion and returns the
result of `walk_document`. -/
theorem c8_walk_document_terminates :
    ∀ (S T : Type) (v : QueryVisitor S T) (s : S) (node : Document T),
      ∃ fuel : Nat,
        walk_document_fuel fuel v s node = some (walk_document v s node) :=
  fun _ _ v s node =>
    ⟨fuelBoundDocument node, walk_document_fuel_spec v node _ s le_rfl⟩

/-- C9: a union-typed node's hook fires before the dispatch on its concrete
variant: a document holding one query operation fires, in order,
`visit_document`, `visit_definition`, `visit_operation_definition` and
`visit_query` for the same underlying definition, and a selection holding a
field fires `visit_selection` and then `visit_field` for that selection. -/
theorem c9_union_hook_fires_before_variant_hook (T : Type) :
    (∀ q : Query T,
      traceDocument ⟨[.Operation (.Query q)]⟩ =
        Event.document ⟨[.Operation (.Query q)]⟩ ::
        Event.definition (.Operation (.Query q)) ::
        Event.operation_definition (.Query q) ::
        Event.query q ::
        ((q.variable_definitions.map traceVariableDefinition).flatten ++
          traceSelectionSet q.selection_set)) ∧
    (∀ f : Field T, traceSelection (.Field f) =
        [Event.selection (.Field f), Event.field f]) := by
  constructor
  · intro q
    rw [traceDocument_eq]
    simp [traceDefinition_operation, traceOperationDefinition_query, traceQuery_eq]
  · intro f
    rw [traceSelection_field, traceField_eq]

/-- C10: walking a document with an empty definitions sequence invokes
exactly one hook: `visit_document` with that document, and nothing else. -/
theorem c10_empty_document_single_hook :
    ∀ (T : Type), traceDocument (Document.mk ([] : List (Definition T))) =
      [Event.document (Document.mk [])] :=
  fun _ => rfl

end GraphqlParser
